/-
Verification of the FlowPilot plan → approval → dispatch pipeline.

Shallow embedding of the TypeScript source:
 - `makePostKey`, `isValidPlan`, dispatch-ready resolver  (app/api/dispatch-ready/route.ts)
 - approval / dispatch upsert endpoints                   (app/api/plan-approvals, app/api/dispatch)
 - `extractPlanFromResponsesPayload` and the /api/plan route (app/api/plan/route.ts)
 - `fetchDueJobs`                                         (app/api/review-jobs routes)
 - review-settings `sendDelayMinutes` clamping            (app/api/review-settings/route.ts)
 - the appointment webhook                                 (app/api/booking webhook route)

Strings are modelled as Lean `String` (lists of characters); JavaScript
`.slice(0, n)` is modelled as taking the first `n` characters; JavaScript
whitespace (`\s`) is modelled by the common ASCII whitespace characters.
`Date`-parsing/ISO-renormalisation of timestamps is modelled as identity or as
an explicit parse parameter, as noted at each definition.
-/
import Mathlib

namespace FlowPilot

/-! ## JavaScript string primitives -/

/-- Model of JavaScript `s.slice(0, n)`: the first `n` characters of `s`. -/
def jsSlice (s : String) (n : Nat) : String :=
  ⟨s.data.take n⟩

/-- Model of the JavaScript `\s` character class (ASCII part). -/
def jsIsWs (c : Char) : Bool :=
  c = ' ' || c = '\t' || c = '\n' || c = '\r' || c = '\x0b' || c = '\x0c'

/-- Model of JavaScript `s.trim()` on character lists: drop leading and
trailing whitespace. -/
def jsTrimData (l : List Char) : List Char :=
  ((l.dropWhile jsIsWs).reverse.dropWhile jsIsWs).reverse

/-- Model of `.replace(/\s+/g, " ")`: collapse every maximal whitespace run to
a single space.  The flag records whether the previous character was
whitespace. -/
def collapseWsAux : Bool → List Char → List Char
  | _, [] => []
  | prevWs, c :: cs =>
    if jsIsWs c then
      (if prevWs then [] else [' ']) ++ collapseWsAux true cs
    else
      c :: collapseWsAux false cs

/-- `normalizeSpaces` from app/api/plan-approvals/route.ts (lines 32-34) and
app/api/dispatch/route.ts (lines 29-31): `s.trim().replace(/\s+/g, " ")`. -/
def normalizeSpaces (s : String) : String :=
  ⟨collapseWsAux false (jsTrimData s.data)⟩

/-- Lexicographic `≤` on character lists by code point: the model of string
comparison (JavaScript `<`/`localeCompare` on the fixed-width date/time
strings, and the store's timestamp comparison on ISO strings, all agree with
it on the inputs the code compares). -/
def charListLe : List Char → List Char → Bool
  | [], _ => true
  | _ :: _, [] => false
  | a :: as, b :: bs =>
    if a.toNat < b.toNat then true
    else if b.toNat < a.toNat then false
    else charListLe as bs

/-- String comparison on the underlying characters. -/
def strLe (a b : String) : Bool :=
  charListLe a.data b.data

/-! ## Plan data model (dispatch-ready route types) -/

/-- `PlanPost` from app/api/dispatch-ready/route.ts. -/
structure PlanPost where
  source : String
  platform : String
  format : String
  suggested_time_local : String
  caption : String
  hashtags : List String
  media_instructions : String
  approval_required : Bool
  approval_reason : String
deriving DecidableEq, Repr

/-- `PlanDay` from app/api/dispatch-ready/route.ts. -/
structure PlanDay where
  date : String
  posts : List PlanPost
deriving DecidableEq, Repr

/-- `Plan` from app/api/dispatch-ready/route.ts. -/
structure Plan where
  horizon_start_date : String
  horizon_end_date : String
  days : List PlanDay
deriving DecidableEq, Repr

/-- `makePostKey` from app/api/dispatch-ready/route.ts (lines 221-231); the
identical function also appears client-side (plan page).  Joins
`[dayDate, String(idx), platform, format, suggested_time_local,
caption.slice(0,80), media_instructions.slice(0,80)]` with `"|"`. -/
def makePostKey (dayDate : String) (post : PlanPost) (idx : Nat) : String :=
  String.intercalate "|"
    [dayDate, Nat.repr idx, post.platform, post.format,
     post.suggested_time_local, jsSlice post.caption 80,
     jsSlice post.media_instructions 80]

/-! ## JSON values and the plan validator / extractor -/

/-- JSON values, the universe of parsed payloads.  Numbers are modelled as
rationals. -/
inductive Json where
  | null
  | bool (b : Bool)
  | num (x : Rat)
  | str (s : String)
  | arr (elts : List Json)
  | obj (fields : List (String × Json))

/-- JavaScript property access `o.k` for plain data: the first binding of `k`
in an object, `undefined` (`none`) otherwise. -/
def Json.getField? : Json → String → Option Json
  | .obj fs, k => (fs.find? (fun f => f.1 == k)).map (fun f => f.2)
  | _, _ => none

/-- JavaScript `typeof x === "object" && x !== null` (arrays included). -/
def Json.isObjLike : Json → Bool
  | .obj _ => true
  | .arr _ => true
  | _ => false

/-- `isObject` from app/api/plan/route.ts (lines 45-47): a non-null object
that is not an array. -/
def Json.isObject : Json → Bool
  | .obj _ => true
  | _ => false

/-- `isYyyyMmDd` from app/api/dispatch-ready/route.ts (lines 179-181):
`/^\d{4}-\d{2}-\d{2}$/`. -/
def isYyyyMmDd (s : String) : Bool :=
  match s.data with
  | [a, b, c, d, h1, e, f, h2, g, h] =>
    a.isDigit && b.isDigit && c.isDigit && d.isDigit && h1 = '-' &&
    e.isDigit && f.isDigit && h2 = '-' && g.isDigit && h.isDigit
  | _ => false

/-- `isHhMm` from app/api/dispatch-ready/route.ts (lines 183-185):
`/^([01]\d|2[0-3]):([0-5]\d)$/`. -/
def isHhMm (s : String) : Bool :=
  match s.data with
  | [a, b, c, d, e] =>
    (((a = '0' || a = '1') && b.isDigit) || (a = '2' && ('0' ≤ b && b ≤ '3'))) &&
    c = ':' && ('0' ≤ d && d ≤ '5') && e.isDigit
  | _ => false

/-- Does field `k` hold a string drawn from `vals`?  Models the chained
`post.source !== "priority" && post.source !== "scheduled"` style checks. -/
def Json.fieldIsStrIn (j : Json) (k : String) (vals : List String) : Bool :=
  match j.getField? k with
  | some (.str s) => vals.contains s
  | _ => false

/-- Does field `k` hold a string? -/
def Json.fieldIsStr (j : Json) (k : String) : Bool :=
  match j.getField? k with
  | some (.str _) => true
  | _ => false

/-- One post check inside `isValidPlan` (app/api/dispatch-ready/route.ts,
lines 198-209). -/
def isValidPost (post : Json) : Bool :=
  post.isObjLike &&
  post.fieldIsStrIn "source" ["priority", "scheduled"] &&
  post.fieldIsStrIn "platform" ["instagram", "facebook"] &&
  post.fieldIsStrIn "format" ["post", "reel", "story"] &&
  (match post.getField? "suggested_time_local" with
   | some (.str s) => isHhMm s
   | _ => false) &&
  post.fieldIsStr "caption" &&
  (match post.getField? "hashtags" with
   | some (.arr ts) => ts.all (fun t => match t with | .str _ => true | _ => false)
   | _ => false) &&
  post.fieldIsStr "media_instructions" &&
  (match post.getField? "approval_required" with
   | some (.bool _) => true
   | _ => false) &&
  post.fieldIsStr "approval_reason"

/-- One day check inside `isValidPlan` (lines 193-210). -/
def isValidDay (day : Json) : Bool :=
  day.isObjLike &&
  (match day.getField? "date" with
   | some (.str s) => isYyyyMmDd s
   | _ => false) &&
  (match day.getField? "posts" with
   | some (.arr ps) => ps.all isValidPost
   | _ => false)

/-- `isValidPlan` from app/api/dispatch-ready/route.ts (lines 187-213): the
full structural validator (PlanValidator). -/
def isValidPlan (plan : Json) : Bool :=
  plan.isObjLike &&
  (match plan.getField? "horizon_start_date" with
   | some (.str s) => isYyyyMmDd s
   | _ => false) &&
  (match plan.getField? "horizon_end_date" with
   | some (.str s) => isYyyyMmDd s
   | _ => false) &&
  (match plan.getField? "days" with
   | some (.arr ds) => ds.all isValidDay
   | _ => false)

/-- `looksLikePlan` from app/api/plan/route.ts (lines 57-64): the lightweight
shape check used by the extractor — an object whose `horizon_start_date` and
`horizon_end_date` are strings and whose `days` is an array. -/
def looksLikePlan (x : Json) : Bool :=
  x.isObject &&
  x.fieldIsStr "horizon_start_date" &&
  x.fieldIsStr "horizon_end_date" &&
  (match x.getField? "days" with
   | some (.arr _) => true
   | _ => false)

/-- The field `k` of `j` when it holds a string (`typeof v === "string"`). -/
def Json.getStrField? (j : Json) (k : String) : Option String :=
  match j.getField? k with
  | some (.str s) => some s
  | _ => none

/-- The field `k` of `j` when it holds an array (`Array.isArray(v)`). -/
def Json.getArrField? (j : Json) (k : String) : Option (List Json) :=
  match j.getField? k with
  | some (.arr xs) => some xs
  | _ => none

/-- A string field of `c` that, when `JSON.parse`d, looks like a plan.
`parse` models `JSON.parse` (`none` = throws). -/
def tryParsedStrField (parse : String → Option Json) (c : Json) (f : String)
    (hint : String) : Option (Json × String) :=
  match c.getStrField? f with
  | some v =>
    match parse v with
    | some obj => if looksLikePlan obj then some (obj, hint) else none
    | none => none
  | none => none

/-- The per-content-entry extraction attempts of
`extractPlanFromResponsesPayload` (app/api/plan/route.ts lines 83-114), in
source order: the pre-parsed `json` field, then `text`, then the alternate
string fields `value`, `output_text`, `content`. -/
def tryContentEntry (parse : String → Option Json) (c : Json) :
    Option (Json × String) :=
  (match c.getField? "json" with
   | some maybeJson =>
     if looksLikePlan maybeJson then some (maybeJson, "from output.content.json") else none
   | none => none) <|>
  tryParsedStrField parse c "text" "from output.content.text" <|>
  tryParsedStrField parse c "value" "from output.content.value" <|>
  tryParsedStrField parse c "output_text" "from output.content.output_text" <|>
  tryParsedStrField parse c "content" "from output.content.content"

/-- `extractPlanFromResponsesPayload` from app/api/plan/route.ts (lines
49-122).  `parse` models `JSON.parse`; `none` models `{ plan: null }`. -/
def extractPlanFromResponsesPayload (parse : String → Option Json)
    (payload : Json) : Option (Json × String) :=
  (match payload.getStrField? "output_text" with
   | some s =>
     match parse s with
     | some obj =>
       if looksLikePlan obj then some (obj, "from payload.output_text") else none
     | none => none
   | none => none) <|>
  (match payload.getArrField? "output" with
   | some output =>
     output.findSome? (fun item =>
       match item.getArrField? "content" with
       | some content => content.findSome? (tryContentEntry parse)
       | none => none)
   | none => none) <|>
  (if looksLikePlan payload then some (payload, "from payload root") else none)

/-- The tail of the `/api/plan` GET handler (app/api/plan/route.ts lines
263-281) after a successful upstream 2xx JSON response `payload`: on
extraction success the plan is returned; otherwise a fixed error message —
the raw upstream payload is only logged, never returned. -/
def planRouteOutcome (parse : String → Option Json) (payload : Json) :
    Except String (Json × String) :=
  match extractPlanFromResponsesPayload parse payload with
  | some res => .ok res
  | none => .error "OpenAI returned an unexpected format. Check server logs for the raw response."

/-! ## Approval and dispatch registries -/

/-- `ApprovalStatus` (`"pending" | "approved" | "rejected"`). -/
inductive ApprovalStatus where
  | pending
  | approved
  | rejected
deriving DecidableEq, Repr

/-- `ApprovalRow` from app/api/dispatch-ready/route.ts (lines 153-159); the
`user_id` column is fixed by the per-user query and omitted. -/
structure ApprovalRow where
  post_key : String
  status : ApprovalStatus
  decided_at : Option String
  reject_reason : Option String
  updated_at : String
deriving DecidableEq, Repr

/-- `DispatchRow` from app/api/dispatch-ready/route.ts (lines 147-151). -/
structure DispatchRow where
  post_key : String
  ready : Bool
  updated_at : String
deriving DecidableEq, Repr

/-- The `approvals` map built by the resolver (lines 309-313): rows are
written into a record keyed by `post_key` (later rows overwrite earlier),
skipping rows with an empty (falsy) `post_key`.  Lookup of key `k` therefore
returns the last row whose non-empty `post_key` equals `k`. -/
def approvalsMap (rows : List ApprovalRow) (k : String) : Option ApprovalRow :=
  (rows.filter (fun r => r.post_key != "" && r.post_key == k)).getLast?

/-- The `dispatchReadyKeys` set built by the resolver (lines 282-288) from the
rows of the per-user `plan_dispatch` query filtered on `ready = true`
(line 278), skipping rows with an empty (falsy) `post_key`. -/
def dispatchReadyKeys (rows : List DispatchRow) : List String :=
  ((rows.filter (fun r => r.ready)).filter (fun r => r.post_key != "")).map
    (fun r => r.post_key)

/-- The `dispatchUpdatedAt` record (lines 283-288), last write wins.  The
source stores `new Date(row.updated_at).toISOString()`; the timestamp
renormalisation is modelled as identity. -/
def dispatchUpdatedAt (rows : List DispatchRow) (k : String) : Option String :=
  (((rows.filter (fun r => r.ready)).filter (fun r => r.post_key != "")).filter
    (fun r => r.post_key == k)).getLast?.map (fun r => r.updated_at)

/-- Model of `t.startsWith("#")` on the character list. -/
def strHeadIsHash (t : String) : Bool :=
  match t.data with
  | c :: _ => c == '#'
  | [] => false

/-- `joinHashtags` from app/api/dispatch-ready/route.ts (lines 233-239);
`trim` and `startsWith "#"` are modelled on the character lists. -/
def joinHashtags (tags : List String) : String :=
  String.intercalate " "
    (((tags.map (fun t => (⟨jsTrimData t.data⟩ : String))).filter
        (fun t => t != "")).map
      (fun t =>
        if strHeadIsHash t then t
        else "#" ++ ⟨t.data.dropWhile (fun c => c = '#')⟩))

/-- One element of the resolver's `items` array (lines 316-330). -/
structure ResolvedItem where
  postKey : String
  date : String
  timeLocal : String
  platform : String
  format : String
  source : String
  caption : String
  hashtags : String
  mediaInstructions : String
  approvalRequired : Bool
  approvalReason : String
  dispatchUpdatedAtIso : Option String
deriving DecidableEq, Repr

/-- The item pushed for a post that passes both gates (lines 344-358). -/
def mkResolvedItem (dRows : List DispatchRow) (day : PlanDay) (p : PlanPost)
    (postKey : String) : ResolvedItem :=
  { postKey := postKey
    date := day.date
    timeLocal := p.suggested_time_local
    platform := p.platform
    format := p.format
    source := p.source
    caption := p.caption
    hashtags := joinHashtags p.hashtags
    mediaInstructions := p.media_instructions
    approvalRequired := p.approval_required
    approvalReason := p.approval_reason
    dispatchUpdatedAtIso := dispatchUpdatedAt dRows postKey }

/-- The body of `day.posts.forEach((p, idx) => ...)` (lines 333-359): derive
the key, require dispatch readiness, then the approval gate. -/
def resolvePost (dRows : List DispatchRow) (aRows : List ApprovalRow)
    (day : PlanDay) (idxp : Nat × PlanPost) : Option ResolvedItem :=
  let postKey := makePostKey day.date idxp.2 idxp.1
  if (dispatchReadyKeys dRows).contains postKey then
    if idxp.2.approval_required then
      match approvalsMap aRows postKey with
      | some a =>
        if a.status = ApprovalStatus.approved then
          some (mkResolvedItem dRows day idxp.2 postKey)
        else none
      | none => none
    else
      some (mkResolvedItem dRows day idxp.2 postKey)
  else none

/-- The sort comparator (line 363): ascending by `"{date} {timeLocal}"`.  The
source uses `localeCompare`; it is modelled by plain string order, which on
the zero-padded fixed-width `YYYY-MM-DD HH:MM` strings agrees with it. -/
def resolvedItemLe (a b : ResolvedItem) : Bool :=
  strLe (a.date ++ " " ++ a.timeLocal) (b.date ++ " " ++ b.timeLocal)

/-- The item-building core of the dispatch-ready GET resolver
(app/api/dispatch-ready/route.ts lines 274-373), after the stored plan has
been fetched and validated: the short-circuit on an empty dispatch-ready set
(lines 290-299), the per-post dispatch and approval gates (lines 332-360) and
the final sort (line 363). -/
def resolveItems (plan : Plan) (dRows : List DispatchRow)
    (aRows : List ApprovalRow) : List ResolvedItem :=
  if dispatchReadyKeys dRows = [] then []
  else
    ((plan.days.map (fun day =>
        (day.posts.enum.filterMap (resolvePost dRows aRows day)))).flatten).mergeSort
      resolvedItemLe

/-! ## Approval and dispatch POST endpoints -/

/-- The stored row built by the plan-approvals POST handler
(app/api/plan-approvals/route.ts lines 91-117) for an authenticated user.
`postKeyRaw` is the submitted `postKey`, `rejectReasonRaw` the submitted
`rejectReason` (a string or absent/null), `decidedAtIso` the result of
`safeIsoOrNull` on the submitted `decidedAtIso` (ISO-renormalising
`Date.parse` modelled as an already-parsed optional value), `now` the current
ISO timestamp.  Returns `none` when the handler rejects with a 400
(`postKey` missing or blank after normalisation). -/
def approvalPostRow (postKeyRaw : String) (status : ApprovalStatus)
    (rejectReasonRaw : Option String) (decidedAtIso : Option String)
    (now : String) : Option ApprovalRow :=
  if normalizeSpaces postKeyRaw = "" then none
  else
    let postKey := normalizeSpaces postKeyRaw
    let rejectReason := rejectReasonRaw.map normalizeSpaces
    some
      { post_key := postKey
        status := status
        reject_reason := if status = ApprovalStatus.rejected then rejectReason else none
        decided_at :=
          if status = ApprovalStatus.pending then none
          else some (decidedAtIso.getD now)
        updated_at := now }

/-- The stored row built by the dispatch POST handler
(app/api/dispatch/route.ts lines 79-96).  The row's `updated_at` is filled by
the store; `now` stands for it.  Returns `none` on the 400 path. -/
def dispatchPostRow (postKeyRaw : String) (ready : Bool) (now : String) :
    Option DispatchRow :=
  if normalizeSpaces postKeyRaw = "" then none
  else some { post_key := normalizeSpaces postKeyRaw, ready := ready, updated_at := now }

/-- The store's `upsert` on conflict key `(user_id, post_key)` for the
per-user approval table: replace the row with the matching `post_key`, or
append. -/
def approvalsUpsert (rows : List ApprovalRow) (row : ApprovalRow) :
    List ApprovalRow :=
  if rows.any (fun r => r.post_key == row.post_key) then
    rows.map (fun r => if r.post_key == row.post_key then row else r)
  else rows ++ [row]

/-! ## Review job queue -/

/-- `ReviewJobRow` from the review-jobs route (part of the worker API). -/
structure ReviewJobRow where
  id : String
  user_id : String
  channel : String
  to_email : Option String
  to_phone : Option String
  message : String
  scheduled_for : String
  status : String
deriving DecidableEq, Repr

/-- Is this row due: `status = "queued"` and `scheduled_for <= now`?  ISO
timestamps are compared as strings (fixed-width, so string order is
chronological — the store compares them as timestamps). -/
def isDueJob (now : String) (r : ReviewJobRow) : Bool :=
  r.status == "queued" && strLe r.scheduled_for now

/-- Comparator for the `order("scheduled_for", ascending)` clause. -/
def jobLe (a b : ReviewJobRow) : Bool :=
  strLe a.scheduled_for b.scheduled_for

/-- `fetchDueJobs` from the review-jobs route (lines 48-63): the rows of
`review_jobs` with `status = "queued"` and `scheduled_for <= now`, ordered
ascending by `scheduled_for`, limited to `limit`. -/
def fetchDueJobs (table : List ReviewJobRow) (now : String) (limit : Nat) :
    List ReviewJobRow :=
  (((table.filter (isDueJob now)).mergeSort jobLe).take limit)

/-! ## Review settings: sendDelayMinutes clamping -/

/-- A submitted JSON field value as seen by the handlers, keeping the
JavaScript number distinctions the code tests for (`typeof x === "number"`
and `Number.isFinite`). -/
inductive JsVal where
  | num (x : Rat)
  | nan
  | infinite
  | str (s : String)
  | boolean (b : Bool)
  | nullVal
  | undefined
deriving DecidableEq, Repr

/-- The `sendDelayMinutes` computation at settings-save time
(app/api/review-settings/route.ts lines 99-102), repeated verbatim for the
stored `send_delay_minutes` at webhook time (webhook route lines 165-168):
`typeof v === "number" && Number.isFinite(v) ?
Math.max(0, Math.min(7*24*60, Math.floor(v))) : 120`. -/
def clampSendDelay : JsVal → Int
  | .num x => max 0 (min (7 * 24 * 60) ⌊x⌋)
  | _ => 120

/-! ## Appointment webhook -/

/-- `asString` from the webhook route (lines 37-39): a string with non-empty
trim, trimmed; everything else is `null`. -/
def jsAsString : Option Json → Option String
  | some (.str s) =>
    if (⟨jsTrimData s.data⟩ : String) = "" then none
    else some (⟨jsTrimData s.data⟩ : String)
  | _ => none

/-- Field extraction by alternate key names (webhook route lines 99-104):
first present, non-empty value wins. -/
def extractExternalEventId (rawObj : Json) : Option String :=
  jsAsString (rawObj.getField? "external_event_id") <|>
  jsAsString (rawObj.getField? "eventId") <|>
  jsAsString (rawObj.getField? "id") <|>
  jsAsString (rawObj.getField? "bookingId")

/-- Webhook route lines 106-110. -/
def extractCustomerName (rawObj : Json) : Option String :=
  jsAsString (rawObj.getField? "customer_name") <|>
  jsAsString (rawObj.getField? "customerName") <|>
  jsAsString (rawObj.getField? "name")

/-- Webhook route lines 112-116. -/
def extractCustomerEmail (rawObj : Json) : Option String :=
  jsAsString (rawObj.getField? "customer_email") <|>
  jsAsString (rawObj.getField? "customerEmail") <|>
  jsAsString (rawObj.getField? "email")

/-- Webhook route lines 118-122. -/
def extractCustomerPhone (rawObj : Json) : Option String :=
  jsAsString (rawObj.getField? "customer_phone") <|>
  jsAsString (rawObj.getField? "customerPhone") <|>
  jsAsString (rawObj.getField? "phone")

/-- Webhook route lines 124-129; `parseDate` models
`Date.parse` + `toISOString` (`asDateIsoOrNull` on an already-trimmed
non-empty string). -/
def extractAppointmentEnd (parseDate : String → Option String) (rawObj : Json) :
    Option String :=
  ((jsAsString (rawObj.getField? "appointment_end")).bind parseDate) <|>
  ((jsAsString (rawObj.getField? "appointmentEnd")).bind parseDate) <|>
  ((jsAsString (rawObj.getField? "end")).bind parseDate) <|>
  ((jsAsString (rawObj.getField? "endTime")).bind parseDate)

/-- An `appointment_events` row.  `id` is the store-assigned primary key,
modelled as a counter. -/
structure AppointmentEvent where
  id : Nat
  user_id : String
  external_event_id : Option String
  customer_name : Option String
  customer_email : Option String
  customer_phone : Option String
  appointment_end : Option String
  raw : Json

/-- A `review_jobs` row as inserted by the webhook (lines 203-212);
`scheduled_for` is milliseconds since epoch. -/
structure ReviewJob where
  user_id : String
  appointment_event_id : Nat
  channel : String
  to_email : Option String
  to_phone : Option String
  message : String
  scheduled_for : Int
  status : String

/-- The per-user review settings loaded by the webhook (lines 89-96). -/
structure StoredReviewSettings where
  review_url : String
  send_delay_minutes : JsVal
  channel : String
  template : String

/-- The store state the webhook reads and writes. -/
structure WebhookState where
  events : List AppointmentEvent
  jobs : List ReviewJob
  nextId : Nat

/-- The webhook's JSON response, reduced to the fields the claims are about. -/
structure WebhookResponse where
  deduped : Bool
  queued : Option Bool
  reason : Option String
  appointmentEventId : Option Nat
deriving DecidableEq, Repr

/-- `substituteTemplate` from the webhook route (lines 49-51). -/
def substituteTemplate (template reviewUrl : String) : String :=
  template.replace "{review_url}" reviewUrl

/-- The webhook's dedup check (lines 131-145): an external id is present and
an `appointment_events` row for `(user_id, external_event_id)` already
exists. -/
def webhookExisting (userId : String) (st : WebhookState) (rawObj : Json) :
    Bool :=
  match extractExternalEventId rawObj with
  | some e =>
    (st.events.find? (fun ev =>
      ev.user_id == userId && ev.external_event_id == some e)).isSome
  | none => false

/-- The appointment event inserted at step 5 (lines 147-160); the store's
fresh primary key is modelled by the `nextId` counter. -/
def webhookNewEvent (parseDate : String → Option String) (userId : String)
    (st : WebhookState) (rawObj : Json) : AppointmentEvent :=
  { id := st.nextId
    user_id := userId
    external_event_id := extractExternalEventId rawObj
    customer_name := extractCustomerName rawObj
    customer_email := extractCustomerEmail rawObj
    customer_phone := extractCustomerPhone rawObj
    appointment_end := extractAppointmentEnd parseDate rawObj
    raw := rawObj }

/-- The channel selection `settings.channel === "sms" ? "sms" : "email"`
(line 176). -/
def webhookChannel (settings : StoredReviewSettings) : String :=
  if settings.channel == "sms" then "sms" else "email"

/-- The review job built at step 6 (lines 164-212). -/
def webhookNewJob (userId : String) (settings : StoredReviewSettings)
    (now : Int) (st : WebhookState) (rawObj : Json) : ReviewJob :=
  { user_id := userId
    appointment_event_id := st.nextId
    channel := webhookChannel settings
    to_email := if webhookChannel settings = "email" then extractCustomerEmail rawObj else none
    to_phone := if webhookChannel settings = "email" then none else extractCustomerPhone rawObj
    message := substituteTemplate settings.template settings.review_url
    scheduled_for := now + clampSendDelay settings.send_delay_minutes * 60 * 1000
    status := "queued" }

/-- The non-deduplicated path of the webhook (lines 147-222): insert the
appointment event, then either report a missing recipient for the selected
channel (the event stays inserted) or also enqueue the review job. -/
def webhookFresh (parseDate : String → Option String) (userId : String)
    (settings : StoredReviewSettings) (now : Int) (st : WebhookState)
    (rawObj : Json) : WebhookResponse × WebhookState :=
  if webhookChannel settings = "email" ∧ extractCustomerEmail rawObj = none then
    ({ deduped := false, queued := some false,
       reason := some "missing_customer_email",
       appointmentEventId := some st.nextId },
     { events := st.events ++ [webhookNewEvent parseDate userId st rawObj]
       jobs := st.jobs
       nextId := st.nextId + 1 })
  else if webhookChannel settings ≠ "email" ∧ extractCustomerPhone rawObj = none then
    ({ deduped := false, queued := some false,
       reason := some "missing_customer_phone",
       appointmentEventId := some st.nextId },
     { events := st.events ++ [webhookNewEvent parseDate userId st rawObj]
       jobs := st.jobs
       nextId := st.nextId + 1 })
  else
    ({ deduped := false, queued := some true, reason := none,
       appointmentEventId := some st.nextId },
     { events := st.events ++ [webhookNewEvent parseDate userId st rawObj]
       jobs := st.jobs ++ [webhookNewJob userId settings now st rawObj]
       nextId := st.nextId + 1 })

/-- The webhook POST handler core (webhook route lines 98-222), after token
check, slug resolution to `userId` and settings load: extract fields, dedupe
on `(user_id, external_event_id)` when an external id is present (state
unchanged), otherwise run the insert path.  `now` is `Date.now()` in
milliseconds. -/
def webhookPost (parseDate : String → Option String) (userId : String)
    (settings : StoredReviewSettings) (now : Int) (st : WebhookState)
    (rawObj : Json) : WebhookResponse × WebhookState :=
  if webhookExisting userId st rawObj then
    ({ deduped := true, queued := none, reason := none, appointmentEventId := none }, st)
  else
    webhookFresh parseDate userId settings now st rawObj

/-! ## Auxiliary predicates and functions used by the theorems -/

/-- Does the character list contain two consecutive whitespace characters? -/
def hasWsRun : List Char → Bool
  | a :: b :: rest => (jsIsWs a && jsIsWs b) || hasWsRun (b :: rest)
  | _ => false

/-- Does the string start with whitespace? -/
def strHasLeadingWs (s : String) : Bool :=
  match s.data with
  | c :: _ => jsIsWs c
  | [] => false

/-- Does the string end with whitespace? -/
def strHasTrailingWs (s : String) : Bool :=
  match s.data.getLast? with
  | some c => jsIsWs c
  | none => false

/-- The string contains no `'|'` delimiter character. -/
def noPipe (s : String) : Prop :=
  '|' ∉ s.data

instance (s : String) : Decidable (noPipe s) := by
  unfold noPipe; infer_instance

/-- Reference decimal-digit expansion of a natural number, used to reason
about `Nat.repr`. -/
def decDigits (n : Nat) : List Char :=
  if _h : n < 10 then [Nat.digitChar n]
  else decDigits (n / 10) ++ [Nat.digitChar (n % 10)]
decreasing_by exact Nat.div_lt_self (by omega) (by omega)

/-- A `JSON.parse` / `Date.parse` stand-in that always fails; used to
instantiate parse parameters at concrete inputs that never consult them. -/
def noParse : String → Option Json :=
  fun _ => none

/-- A `Date.parse` stand-in that always fails. -/
def noDateParse : String → Option String :=
  fun _ => none

/-- Concrete review settings used by the concrete evaluations. -/
def sampleSettings : StoredReviewSettings :=
  { review_url := "https://example.com/review"
    send_delay_minutes := JsVal.num 120
    channel := "email"
    template := "Please leave a review: {review_url}" }

/-- Concrete plan post used by the concrete evaluations. -/
def samplePost : PlanPost :=
  { source := "scheduled"
    platform := "instagram"
    format := "post"
    suggested_time_local := "10:00"
    caption := "Hello"
    hashtags := ["#glow"]
    media_instructions := "Use photo"
    approval_required := true
    approval_reason := "promo" }

/-- Concrete one-day plan holding `samplePost`. -/
def samplePlan : Plan :=
  { horizon_start_date := "2025-01-01"
    horizon_end_date := "2025-01-07"
    days := [{ date := "2025-01-02", posts := [samplePost] }] }

/-- The key `makePostKey` derives for `samplePost` at day `2025-01-02`,
index 0. -/
def sampleKey : String :=
  "2025-01-02|0|instagram|post|10:00|Hello|Use photo"

/-- A dispatch state marking `sampleKey` ready. -/
def sampleDispatch : List DispatchRow :=
  [{ post_key := sampleKey, ready := true, updated_at := "2025-01-02T08:00:00Z" }]

/-- An approval state approving `sampleKey`. -/
def sampleApprovals : List ApprovalRow :=
  [{ post_key := sampleKey, status := ApprovalStatus.approved,
     decided_at := some "2025-01-02T07:00:00Z", reject_reason := none,
     updated_at := "2025-01-02T07:00:00Z" }]

/-- The item the resolver emits in the sample state. -/
def sampleItem : ResolvedItem :=
  mkResolvedItem sampleDispatch { date := "2025-01-02", posts := [samplePost] }
    samplePost sampleKey

/-! ## Theorems

Helper lemmas first, then one theorem per claim (C1-C10), each with its
witness or counterexample where required. -/

theorem approvalsMap_upsert (rows : List ApprovalRow) (row : ApprovalRow)
    (hk : row.post_key ≠ "") :
    approvalsMap (approvalsUpsert rows row) row.post_key = some row := by
  unfold approvalsUpsert
  split
  · rename_i hany
    unfold approvalsMap
    set L := (rows.map (fun r => if r.post_key == row.post_key then row
      else r)).filter (fun r => r.post_key != "" && r.post_key == row.post_key)
      with hL
    have hall : ∀ x ∈ L, x = row := by
      intro x hx
      rw [hL, List.mem_filter, List.mem_map] at hx
      obtain ⟨⟨r, _, hfr⟩, hp⟩ := hx
      by_cases hr : r.post_key = row.post_key
      · simpa [hr] using hfr.symm
      · rw [if_neg (by simpa using hr)] at hfr
        subst hfr
        simp [hr] at hp
    have hne : L ≠ [] := by
      rw [List.any_eq_true] at hany
      obtain ⟨r, hr, hrk⟩ := hany
      apply List.ne_nil_of_mem (a := row)
      rw [hL, List.mem_filter]
      constructor
      · rw [List.mem_map]
        exact ⟨r, hr, by simp [hrk]⟩
      · simp [hk]
    rcases hlast : L.getLast? with _ | c
    · exact absurd (List.getLast?_eq_none_iff.mp hlast) hne
    · rw [hall c (List.mem_of_getLast?_eq_some hlast)]
  · unfold approvalsMap
    rw [List.filter_append]
    rw [show (List.filter (fun r => r.post_key != "" && r.post_key == row.post_key)
      [row]) = [row] by simp [hk]]
    exact List.getLast?_concat _

/-- C6: for every approval set call, the stored record has `decidedAt = null`
when the status is `pending` and `rejectReason = null` when the status is not
`rejected`; the upsert fully overwrites any prior record for the key, so
after setting `pending` the record looked up for that key is exactly the new
one (with both fields null). -/
theorem approval_set_field_rules (state : List ApprovalRow)
    (postKeyRaw : String) (status : ApprovalStatus)
    (rejectReasonRaw : Option String) (decidedAtIso : Option String)
    (now : String) (row : ApprovalRow)
    (h : approvalPostRow postKeyRaw status rejectReasonRaw decidedAtIso now = some row) :
    (status = ApprovalStatus.pending → row.decided_at = none) ∧
    (status ≠ ApprovalStatus.rejected → row.reject_reason = none) ∧
    approvalsMap (approvalsUpsert state row) row.post_key = some row := by
  unfold approvalPostRow at h
  split at h
  · exact absurd h (by simp)
  · rename_i hkey
    injection h with h
    subst h
    refine ⟨fun hp => by simp [hp], fun hr => by simp [hr], ?_⟩
    exact approvalsMap_upsert state _ hkey

/-- Witness for C6: setting `pending` over a previously `rejected` record for
key `"k"` stores `decidedAt = null`, `rejectReason = null`, and the lookup
returns exactly the new record. -/
theorem approval_set_field_rules_witness :
    ({ post_key := "k", status := ApprovalStatus.pending, decided_at := none,
       reject_reason := none, updated_at := "T0" } : ApprovalRow).decided_at = none ∧
    ({ post_key := "k", status := ApprovalStatus.pending, decided_at := none,
       reject_reason := none, updated_at := "T0" } : ApprovalRow).reject_reason = none ∧
    approvalsMap
      (approvalsUpsert
        [{ post_key := "k", status := ApprovalStatus.rejected,
           decided_at := some "T-1", reject_reason := some "bad",
           updated_at := "T-1" }]
        { post_key := "k", status := ApprovalStatus.pending, decided_at := none,
          reject_reason := none, updated_at := "T0" })
      ({ post_key := "k", status := ApprovalStatus.pending, decided_at := none,
         reject_reason := none, updated_at := "T0" } : ApprovalRow).post_key =
      some { post_key := "k", status := ApprovalStatus.pending, decided_at := none,
             reject_reason := none, updated_at := "T0" } := by
  have h := approval_set_field_rules
    [{ post_key := "k", status := ApprovalStatus.rejected,
       decided_at := some "T-1", reject_reason := some "bad", updated_at := "T-1" }]
    "k" ApprovalStatus.pending (some "why") (some "T1") "T0"
    { post_key := "k", status := ApprovalStatus.pending, decided_at := none,
      reject_reason := none, updated_at := "T0" }
    (by decide)
  exact ⟨h.1 rfl, h.2.1 (by decide), h.2.2⟩

/-- C9: at settings-save time a submitted finite `sendDelayMinutes` is
floored and clamped into `[0, 10080]` (`-5 ↦ 0`, `999999 ↦ 10080`,
integers already in range are kept), and any non-numeric or non-finite value
(`"abc"`, `NaN`, `Infinity`, `null`, absent) is stored as the default
`120`. -/
theorem sendDelay_clamp_spec :
    clampSendDelay (JsVal.num (-5)) = 0 ∧
    clampSendDelay (JsVal.num 999999) = 10080 ∧
    clampSendDelay (JsVal.str "abc") = 120 ∧
    clampSendDelay JsVal.nan = 120 ∧
    clampSendDelay JsVal.infinite = 120 ∧
    clampSendDelay JsVal.nullVal = 120 ∧
    clampSendDelay JsVal.undefined = 120 ∧
    (∀ x : ℚ, 0 ≤ clampSendDelay (JsVal.num x) ∧
      clampSendDelay (JsVal.num x) ≤ 10080) ∧
    (∀ n : ℤ, 0 ≤ n → n ≤ 10080 → clampSendDelay (JsVal.num (n : ℚ)) = n) := by
  refine ⟨by norm_num [clampSendDelay], by norm_num [clampSendDelay],
    rfl, rfl, rfl, rfl, rfl, ?_, ?_⟩
  · intro x
    unfold clampSendDelay
    exact ⟨le_max_left _ _, max_le (by norm_num) (min_le_left _ _)⟩
  · intro n h0 h1
    show max 0 (min (7 * 24 * 60) ⌊(n : ℚ)⌋) = n
    rw [Int.floor_intCast]
    omega

theorem charListLe_total (a b : List Char) :
    charListLe a b = true ∨ charListLe b a = true := by
  induction a generalizing b with
  | nil => left; rfl
  | cons x xs ih =>
    cases b with
    | nil => right; rfl
    | cons y ys =>
      unfold charListLe
      rcases Nat.lt_trichotomy x.toNat y.toNat with h | h | h
      · left; simp [h]
      · have h1 : ¬ x.toNat < y.toNat := by omega
        have h2 : ¬ y.toNat < x.toNat := by omega
        simpa [h1, h2] using ih ys
      · right; simp [h]

theorem charListLe_trans {a b c : List Char} (hab : charListLe a b = true)
    (hbc : charListLe b c = true) : charListLe a c = true := by
  induction a generalizing b c with
  | nil => rfl
  | cons x xs ih =>
    cases b with
    | nil => simp [charListLe] at hab
    | cons y ys =>
      cases c with
      | nil => simp [charListLe] at hbc
      | cons z zs =>
        by_cases hxy : x.toNat < y.toNat
        · by_cases hyz : y.toNat < z.toNat
          · have h : x.toNat < z.toNat := by omega
            simp [charListLe, h]
          · by_cases hzy : z.toNat < y.toNat
            · exfalso; simp [charListLe, hyz, hzy] at hbc
            · have h : x.toNat < z.toNat := by omega
              simp [charListLe, h]
        · by_cases hyx : y.toNat < x.toNat
          · exfalso; simp [charListLe, hxy, hyx] at hab
          · have hab2 : charListLe xs ys = true := by
              simpa [charListLe, hxy, hyx] using hab
            by_cases hyz : y.toNat < z.toNat
            · have h : x.toNat < z.toNat := by omega
              simp [charListLe, h]
            · by_cases hzy : z.toNat < y.toNat
              · exfalso; simp [charListLe, hyz, hzy] at hbc
              · have hbc2 : charListLe ys zs = true := by
                  simpa [charListLe, hyz, hzy] using hbc
                have hxz : ¬ x.toNat < z.toNat := by omega
                have hzx : ¬ z.toNat < x.toNat := by omega
                simp [charListLe, hxz, hzx, ih hab2 hbc2]

/-- C7: `fetchDue` at time `now` returns exactly the jobs with
`status = "queued"` and `scheduledFor <= now` (all of them whenever they fit
within the limit), ordered ascending by `scheduledFor`; future jobs and jobs
in status `sent` or `failed` are never returned. -/
theorem fetchDueJobs_spec (table : List ReviewJobRow) (now : String)
    (limit : Nat) :
    (∀ r ∈ fetchDueJobs table now limit,
      r ∈ table ∧ r.status = "queued" ∧ strLe r.scheduled_for now = true) ∧
    (fetchDueJobs table now limit).Pairwise
      (fun a b => strLe a.scheduled_for b.scheduled_for = true) ∧
    ((table.filter (isDueJob now)).length ≤ limit →
      (fetchDueJobs table now limit).Perm (table.filter (isDueJob now))) ∧
    (∀ r ∈ table,
      r.status = "sent" ∨ r.status = "failed" ∨ strLe r.scheduled_for now = false →
      r ∉ fetchDueJobs table now limit) := by
  have hmem : ∀ r ∈ fetchDueJobs table now limit,
      r ∈ table ∧ r.status = "queued" ∧ strLe r.scheduled_for now = true := by
    intro r hr
    have h1 : r ∈ (table.filter (isDueJob now)).mergeSort jobLe :=
      List.mem_of_mem_take hr
    rw [List.mem_mergeSort] at h1
    rw [List.mem_filter] at h1
    obtain ⟨ht, hd⟩ := h1
    unfold isDueJob at hd
    simp only [Bool.and_eq_true, beq_iff_eq] at hd
    exact ⟨ht, hd.1, hd.2⟩
  refine ⟨hmem, ?_, ?_, ?_⟩
  · have hs : ((table.filter (isDueJob now)).mergeSort jobLe).Pairwise
        (fun a b => jobLe a b = true) := by
      apply List.sorted_mergeSort
      · intro a b c hab hbc
        exact charListLe_trans hab hbc
      · intro a b
        rcases charListLe_total a.scheduled_for.data b.scheduled_for.data with h | h <;>
          simp [jobLe, strLe, h]
    have := hs.sublist (List.take_sublist limit _)
    exact this.imp (fun h => h)
  · intro hlen
    unfold fetchDueJobs
    rw [List.take_of_length_le (by rwa [List.length_mergeSort])]
    exact List.mergeSort_perm _ _
  · intro r _ hbad hmem2
    obtain ⟨_, hq, hle⟩ := hmem r hmem2
    rcases hbad with h | h | h
    · rw [hq] at h; exact absurd h (by decide)
    · rw [hq] at h; exact absurd h (by decide)
    · rw [hle] at h; exact absurd h (by decide)

/-- Witness for C7: with a queued job ten minutes in the past, a queued job
five minutes in the future and a sent job an hour in the past, `fetchDue` at
`10:00` returns exactly the due filter (which contains only the `09:50`
queued job). -/
theorem fetchDueJobs_spec_witness :
    (fetchDueJobs
      [{ id := "a", user_id := "u", channel := "email", to_email := some "x@y.z",
         to_phone := none, message := "m",
         scheduled_for := "2025-01-01T09:50:00Z", status := "queued" },
       { id := "b", user_id := "u", channel := "email", to_email := some "x@y.z",
         to_phone := none, message := "m",
         scheduled_for := "2025-01-01T10:05:00Z", status := "queued" },
       { id := "c", user_id := "u", channel := "email", to_email := some "x@y.z",
         to_phone := none, message := "m",
         scheduled_for := "2025-01-01T09:00:00Z", status := "sent" }]
      "2025-01-01T10:00:00Z" 25).Perm
    ([{ id := "a", user_id := "u", channel := "email", to_email := some "x@y.z",
        to_phone := none, message := "m",
        scheduled_for := "2025-01-01T09:50:00Z", status := "queued" },
      { id := "b", user_id := "u", channel := "email", to_email := some "x@y.z",
        to_phone := none, message := "m",
        scheduled_for := "2025-01-01T10:05:00Z", status := "queued" },
      { id := "c", user_id := "u", channel := "email", to_email := some "x@y.z",
        to_phone := none, message := "m",
        scheduled_for := "2025-01-01T09:00:00Z", status := "sent" }].filter
      (isDueJob "2025-01-01T10:00:00Z")) :=
  (fetchDueJobs_spec _ "2025-01-01T10:00:00Z" 25).2.2.1 (by decide)

theorem webhookFresh_parts (pd : String → Option String) (u : String)
    (s : StoredReviewSettings) (n : Int) (st : WebhookState) (raw : Json) :
    (webhookFresh pd u s n st raw).1.deduped = false ∧
    (webhookFresh pd u s n st raw).2.events =
      st.events ++ [webhookNewEvent pd u st raw] ∧
    (webhookFresh pd u s n st raw).2.nextId = st.nextId + 1 ∧
    ((webhookFresh pd u s n st raw).2.jobs = st.jobs ∨
     (webhookFresh pd u s n st raw).2.jobs =
       st.jobs ++ [webhookNewJob u s n st raw]) := by
  unfold webhookFresh
  split_ifs
  · exact ⟨rfl, rfl, rfl, Or.inl rfl⟩
  · exact ⟨rfl, rfl, rfl, Or.inl rfl⟩
  · exact ⟨rfl, rfl, rfl, Or.inr rfl⟩

theorem webhookExisting_of_matching (u : String) (st : WebhookState)
    (raw2 : Json) (e : String) (l : List AppointmentEvent)
    (ev : AppointmentEvent) (hevents : st.events = l ++ [ev])
    (h2 : extractExternalEventId raw2 = some e)
    (hu : ev.user_id = u) (he : ev.external_event_id = some e) :
    webhookExisting u st raw2 = true := by
  unfold webhookExisting
  rw [h2]
  dsimp only
  rw [hevents, List.find?_append]
  have hone : List.find? (fun ev =>
      ev.user_id == u && ev.external_event_id == some e) [ev] = some ev := by
    simp [List.find?_cons, hu, he]
  rw [hone]
  simp

theorem webhookExisting_false (u : String) (st : WebhookState) (raw : Json)
    (e : String) (hext : extractExternalEventId raw = some e)
    (hnone : ∀ ev ∈ st.events, ¬(ev.user_id = u ∧ ev.external_event_id = some e)) :
    webhookExisting u st raw = false := by
  unfold webhookExisting
  rw [hext]
  dsimp only
  have hfind : List.find? (fun ev =>
      ev.user_id == u && ev.external_event_id == some e) st.events = none := by
    rw [List.find?_eq_none]
    intro ev hev
    simp only [Bool.and_eq_true, beq_iff_eq]
    exact fun hc => hnone ev hev hc
  rw [hfind]
  rfl

/-- C8: two webhook calls with the same `externalEventId` for the same user
(starting from a state with no event for that id and no job under the fresh
event id) store exactly one AppointmentEvent and at most one ReviewJob: the
second call reports `deduped` and leaves the state unchanged.  Calls whose
payload yields no `externalEventId` always insert a new AppointmentEvent and
are never deduplicated. -/
theorem webhook_dedup_spec :
    (∀ (parseDate : String → Option String) (userId : String)
        (settings : StoredReviewSettings) (now1 now2 : Int) (st : WebhookState)
        (rawObj : Json) (e : String),
      extractExternalEventId rawObj = some e →
      (∀ ev ∈ st.events, ¬(ev.user_id = userId ∧ ev.external_event_id = some e)) →
      (∀ j ∈ st.jobs, j.appointment_event_id ≠ st.nextId) →
      ((webhookPost parseDate userId settings now2
          (webhookPost parseDate userId settings now1 st rawObj).2 rawObj).1.deduped
          = true ∧
       (webhookPost parseDate userId settings now2
          (webhookPost parseDate userId settings now1 st rawObj).2 rawObj).2 =
         (webhookPost parseDate userId settings now1 st rawObj).2 ∧
       ((webhookPost parseDate userId settings now1 st rawObj).2.events.filter
          (fun ev => ev.user_id == userId && ev.external_event_id == some e)).length
          = 1 ∧
       ((webhookPost parseDate userId settings now1 st rawObj).2.jobs.filter
          (fun j => j.appointment_event_id == st.nextId)).length ≤ 1)) ∧
    (∀ (parseDate : String → Option String) (userId : String)
        (settings : StoredReviewSettings) (now : Int) (st : WebhookState)
        (rawObj : Json),
      extractExternalEventId rawObj = none →
      ((webhookPost parseDate userId settings now st rawObj).1.deduped = false ∧
       (webhookPost parseDate userId settings now st rawObj).2.events =
         st.events ++ [webhookNewEvent parseDate userId st rawObj])) := by
  constructor
  · intro parseDate userId settings now1 now2 st rawObj e hext hnoev hnojob
    have hex1 : webhookExisting userId st rawObj = false :=
      webhookExisting_false userId st rawObj e hext hnoev
    have hcall1 : webhookPost parseDate userId settings now1 st rawObj =
        webhookFresh parseDate userId settings now1 st rawObj := by
      unfold webhookPost
      rw [hex1]
      simp
    obtain ⟨-, hev1, -, hjobs1⟩ :=
      webhookFresh_parts parseDate userId settings now1 st rawObj
    have hnewu : (webhookNewEvent parseDate userId st rawObj).user_id = userId := rfl
    have hnewe : (webhookNewEvent parseDate userId st rawObj).external_event_id
        = some e := by
      unfold webhookNewEvent
      simpa using hext
    have hex2 : webhookExisting userId
        (webhookPost parseDate userId settings now1 st rawObj).2 rawObj = true := by
      apply webhookExisting_of_matching userId _ rawObj e st.events
        (webhookNewEvent parseDate userId st rawObj) _ hext hnewu hnewe
      rw [hcall1]
      exact hev1
    have hcall2 : webhookPost parseDate userId settings now2
        (webhookPost parseDate userId settings now1 st rawObj).2 rawObj =
        ({ deduped := true, queued := none, reason := none,
           appointmentEventId := none },
         (webhookPost parseDate userId settings now1 st rawObj).2) := by
      generalize hst1 : (webhookPost parseDate userId settings now1 st rawObj).2 = st1 at hex2 ⊢
      unfold webhookPost
      rw [hex2]
      simp
    refine ⟨by rw [hcall2], by rw [hcall2], ?_, ?_⟩
    · rw [hcall1, hev1, List.filter_append]
      have hl : st.events.filter
          (fun ev => ev.user_id == userId && ev.external_event_id == some e) = [] := by
        rw [List.filter_eq_nil_iff]
        intro ev hev
        simp only [Bool.and_eq_true, beq_iff_eq, not_and]
        exact fun hc hc2 => hnoev ev hev ⟨hc, hc2⟩
      have hr : ([webhookNewEvent parseDate userId st rawObj].filter
          (fun ev => ev.user_id == userId && ev.external_event_id == some e)) =
          [webhookNewEvent parseDate userId st rawObj] := by
        simp [List.filter_cons, hnewu, hnewe]
      rw [hl, hr]
      rfl
    · have hl : st.jobs.filter (fun j => j.appointment_event_id == st.nextId) = [] := by
        rw [List.filter_eq_nil_iff]
        intro j hj
        simp only [beq_iff_eq]
        exact hnojob j hj
      rw [hcall1]
      rcases hjobs1 with h | h
      · rw [h, hl]
        simp
      · rw [h, List.filter_append, hl]
        simp only [List.nil_append, List.filter_cons, List.filter_nil]
        split <;> simp
  · intro parseDate userId settings now st rawObj hext
    have hex : webhookExisting userId st rawObj = false := by
      unfold webhookExisting
      rw [hext]
    have hcall : webhookPost parseDate userId settings now st rawObj =
        webhookFresh parseDate userId settings now st rawObj := by
      unfold webhookPost
      rw [hex]
      simp
    obtain ⟨h1, h2, -, -⟩ :=
      webhookFresh_parts parseDate userId settings now st rawObj
    exact ⟨by rw [hcall]; exact h1, by rw [hcall]; exact h2⟩

/-- Witness for C8: a payload carrying `id = "E1"` with a recipient email,
replayed against an empty store, is deduplicated on the second call. -/
theorem webhook_dedup_spec_witness :
    (webhookPost noDateParse "u" sampleSettings 5
      (webhookPost noDateParse "u" sampleSettings 0
        { events := [], jobs := [], nextId := 0 }
        (Json.obj [("id", Json.str "E1"), ("email", Json.str "a@b.c")])).2
      (Json.obj [("id", Json.str "E1"), ("email", Json.str "a@b.c")])).1.deduped
      = true :=
  (webhook_dedup_spec.1 noDateParse "u" sampleSettings 0 5
    { events := [], jobs := [], nextId := 0 }
    (Json.obj [("id", Json.str "E1"), ("email", Json.str "a@b.c")]) "E1"
    (by decide) (by simp) (by simp)).1

/-- C10: when the webhook skips enqueueing because the selected channel's
recipient — the email on the email channel, or the phone on the sms
channel — is missing, the AppointmentEvent has already been inserted and is
not rolled back; a retry with the same `externalEventId` — even one that
supplies the missing recipient — is deduplicated against the stored event,
so a ReviewJob is never created for it. -/
theorem webhook_skip_keeps_event_blocks_retry
    (parseDate : String → Option String) (userId : String)
    (settings : StoredReviewSettings) (now1 now2 : Int) (st : WebhookState)
    (rawObj rawObj2 : Json) (e : String)
    (hext : extractExternalEventId rawObj = some e)
    (hnoev : ∀ ev ∈ st.events, ¬(ev.user_id = userId ∧ ev.external_event_id = some e))
    (hskip : (webhookChannel settings = "email" ∧
              extractCustomerEmail rawObj = none) ∨
             (webhookChannel settings = "sms" ∧
              extractCustomerPhone rawObj = none))
    (hext2 : extractExternalEventId rawObj2 = some e) :
    (webhookPost parseDate userId settings now1 st rawObj).1.queued = some false ∧
    ((webhookChannel settings = "email" ∧
      (webhookPost parseDate userId settings now1 st rawObj).1.reason =
        some "missing_customer_email") ∨
     (webhookChannel settings = "sms" ∧
      (webhookPost parseDate userId settings now1 st rawObj).1.reason =
        some "missing_customer_phone")) ∧
    (webhookPost parseDate userId settings now1 st rawObj).2.events =
      st.events ++ [webhookNewEvent parseDate userId st rawObj] ∧
    (webhookPost parseDate userId settings now1 st rawObj).2.jobs = st.jobs ∧
    (webhookPost parseDate userId settings now2
      (webhookPost parseDate userId settings now1 st rawObj).2 rawObj2).1.deduped
      = true ∧
    (webhookPost parseDate userId settings now2
      (webhookPost parseDate userId settings now1 st rawObj).2 rawObj2).2 =
      (webhookPost parseDate userId settings now1 st rawObj).2 := by
  have hex1 : webhookExisting userId st rawObj = false :=
    webhookExisting_false userId st rawObj e hext hnoev
  have hcall1 : webhookPost parseDate userId settings now1 st rawObj =
      ({ deduped := false, queued := some false,
         reason := some (if webhookChannel settings = "email"
           then "missing_customer_email" else "missing_customer_phone"),
         appointmentEventId := some st.nextId },
       { events := st.events ++ [webhookNewEvent parseDate userId st rawObj]
         jobs := st.jobs
         nextId := st.nextId + 1 }) := by
    unfold webhookPost
    rw [hex1]
    simp only [Bool.false_eq_true, if_false]
    rcases hskip with ⟨hchan, hmail⟩ | ⟨hchan, hphone⟩
    · unfold webhookFresh
      rw [if_pos ⟨hchan, hmail⟩, if_pos hchan]
    · have hne : ¬(webhookChannel settings = "email" ∧
          extractCustomerEmail rawObj = none) := by
        intro hcon
        rw [hchan] at hcon
        exact absurd hcon.1 (by decide)
      have hne2 : webhookChannel settings ≠ "email" := by
        rw [hchan]
        decide
      unfold webhookFresh
      rw [if_neg hne, if_pos ⟨hne2, hphone⟩, if_neg hne2]
  have hnewe : (webhookNewEvent parseDate userId st rawObj).external_event_id
      = some e := by
    unfold webhookNewEvent
    simpa using hext
  have hex2 : webhookExisting userId
      (webhookPost parseDate userId settings now1 st rawObj).2 rawObj2 = true := by
    apply webhookExisting_of_matching userId _ rawObj2 e st.events
      (webhookNewEvent parseDate userId st rawObj) _ hext2 rfl hnewe
    rw [hcall1]
  have hcall2 : webhookPost parseDate userId settings now2
      (webhookPost parseDate userId settings now1 st rawObj).2 rawObj2 =
      ({ deduped := true, queued := none, reason := none,
         appointmentEventId := none },
       (webhookPost parseDate userId settings now1 st rawObj).2) := by
    generalize hst1 : (webhookPost parseDate userId settings now1 st rawObj).2 = st1 at hex2 ⊢
    unfold webhookPost
    rw [hex2]
    simp
  refine ⟨by rw [hcall1], ?_, by rw [hcall1], by rw [hcall1],
    by rw [hcall2], by rw [hcall2]⟩
  rcases hskip with ⟨hchan, -⟩ | ⟨hchan, -⟩
  · exact Or.inl ⟨hchan, by rw [hcall1, hchan]; simp⟩
  · have hne2 : webhookChannel settings ≠ "email" := by
      rw [hchan]
      decide
    exact Or.inr ⟨hchan, by rw [hcall1, if_neg hne2]⟩

/-- Witness for C10: with the sms channel, a payload carrying `id = "E1"`
and an email but no phone against an empty store: the first call skips the
job with `missing_customer_phone` but keeps the event; the retry carrying
the phone is deduplicated, so no job is ever created. -/
theorem webhook_skip_keeps_event_blocks_retry_witness :
    (webhookPost noDateParse "u"
      { review_url := "https://example.com/review",
        send_delay_minutes := JsVal.num 120, channel := "sms",
        template := "Please leave a review: {review_url}" } 0
      { events := [], jobs := [], nextId := 0 }
      (Json.obj [("id", Json.str "E1"), ("email", Json.str "a@b.c")])).1.queued
      = some false ∧
    (webhookPost noDateParse "u"
      { review_url := "https://example.com/review",
        send_delay_minutes := JsVal.num 120, channel := "sms",
        template := "Please leave a review: {review_url}" } 0
      { events := [], jobs := [], nextId := 0 }
      (Json.obj [("id", Json.str "E1"), ("email", Json.str "a@b.c")])).2.jobs
      = [] ∧
    (webhookPost noDateParse "u"
      { review_url := "https://example.com/review",
        send_delay_minutes := JsVal.num 120, channel := "sms",
        template := "Please leave a review: {review_url}" } 5
      (webhookPost noDateParse "u"
        { review_url := "https://example.com/review",
          send_delay_minutes := JsVal.num 120, channel := "sms",
          template := "Please leave a review: {review_url}" } 0
        { events := [], jobs := [], nextId := 0 }
        (Json.obj [("id", Json.str "E1"), ("email", Json.str "a@b.c")])).2
      (Json.obj [("id", Json.str "E1"), ("phone", Json.str "123456")])).1.deduped
      = true := by
  have h := webhook_skip_keeps_event_blocks_retry noDateParse "u"
    { review_url := "https://example.com/review",
      send_delay_minutes := JsVal.num 120, channel := "sms",
      template := "Please leave a review: {review_url}" }
    0 5 { events := [], jobs := [], nextId := 0 }
    (Json.obj [("id", Json.str "E1"), ("email", Json.str "a@b.c")])
    (Json.obj [("id", Json.str "E1"), ("phone", Json.str "123456")]) "E1"
    (by decide) (by simp) (Or.inr ⟨by decide, by decide⟩) (by decide)
  exact ⟨h.1, h.2.2.2.1, h.2.2.2.2.1⟩

theorem resolvePost_eq_some {dRows : List DispatchRow}
    {aRows : List ApprovalRow} {day : PlanDay} {idxp : Nat × PlanPost}
    {item : ResolvedItem} (h : resolvePost dRows aRows day idxp = some item) :
    item.postKey = makePostKey day.date idxp.2 idxp.1 ∧
    item.approvalRequired = idxp.2.approval_required ∧
    (dispatchReadyKeys dRows).contains item.postKey = true ∧
    (idxp.2.approval_required = true →
      ∃ a, approvalsMap aRows item.postKey = some a ∧
        a.status = ApprovalStatus.approved) := by
  simp only [resolvePost] at h
  by_cases hc : (dispatchReadyKeys dRows).contains (makePostKey day.date idxp.2 idxp.1) = true
  · rw [if_pos hc] at h
    by_cases har : idxp.2.approval_required = true
    · rw [if_pos har] at h
      cases hmap : approvalsMap aRows (makePostKey day.date idxp.2 idxp.1) with
      | none => rw [hmap] at h; cases h
      | some a =>
        rw [hmap] at h
        dsimp only at h
        by_cases hst : a.status = ApprovalStatus.approved
        · rw [if_pos hst] at h
          injection h with h
          subst h
          exact ⟨rfl, rfl, hc, fun _ => ⟨a, hmap, hst⟩⟩
        · rw [if_neg hst] at h; cases h
    · rw [if_neg har] at h
      injection h with h
      subst h
      exact ⟨rfl, rfl, hc, fun hh => absurd hh har⟩
  · rw [if_neg hc] at h; cases h

theorem mem_resolveItems {plan : Plan} {dRows : List DispatchRow}
    {aRows : List ApprovalRow} {item : ResolvedItem}
    (h : item ∈ resolveItems plan dRows aRows) :
    ∃ day ∈ plan.days, ∃ idxp ∈ day.posts.enum,
      resolvePost dRows aRows day idxp = some item := by
  unfold resolveItems at h
  split at h
  · cases h
  · rw [List.mem_mergeSort, List.mem_flatten] at h
    obtain ⟨l, hl, hitem⟩ := h
    rw [List.mem_map] at hl
    obtain ⟨day, hday, hmapeq⟩ := hl
    subst hmapeq
    rw [List.mem_filterMap] at hitem
    obtain ⟨idxp, hidx, hres⟩ := hitem
    exact ⟨day, hday, idxp, hidx, hres⟩

/-- C1: the dispatch-ready resolver never outputs a post flagged
`approvalRequired = true` unless the ApprovalRegistry holds a record with
status `approved` for that post's derived key — for every stored plan and
every approval/dispatch state. -/
theorem resolver_approval_gate (plan : Plan) (dRows : List DispatchRow)
    (aRows : List ApprovalRow) (item : ResolvedItem)
    (hmem : item ∈ resolveItems plan dRows aRows)
    (hreq : item.approvalRequired = true) :
    ∃ arow ∈ aRows, arow.post_key = item.postKey ∧
      arow.status = ApprovalStatus.approved := by
  obtain ⟨day, hday, idxp, hidx, hres⟩ := mem_resolveItems hmem
  obtain ⟨hkey, happ, hcont, hgate⟩ := resolvePost_eq_some hres
  obtain ⟨a, hmap, hst⟩ := hgate (by rw [← happ]; exact hreq)
  have hmem2 : a ∈ aRows.filter
      (fun r => r.post_key != "" && r.post_key == item.postKey) :=
    List.mem_of_getLast?_eq_some hmap
  rw [List.mem_filter] at hmem2
  obtain ⟨hin, hpred⟩ := hmem2
  simp only [Bool.and_eq_true, bne_iff_ne, beq_iff_eq] at hpred
  exact ⟨a, hin, hpred.2, hst⟩

/-- Witness for C1: a one-post plan whose post requires approval, marked
dispatch-ready and approved, is resolved and the theorem produces the
approved registry record. -/
theorem resolver_approval_gate_witness :
    ∃ arow ∈ sampleApprovals, arow.post_key = sampleItem.postKey ∧
      arow.status = ApprovalStatus.approved :=
  resolver_approval_gate samplePlan sampleDispatch sampleApprovals sampleItem
    (by unfold resolveItems
        rw [if_neg (by decide), List.mem_mergeSort]
        decide)
    (by decide)

/-- C2: a post whose key is absent from the DispatchRegistry or present only
with `ready = false` never appears in the resolver output regardless of its
approval status (every output item has a matching `ready = true` row), and
when no dispatch entry has `ready = true` the resolver returns the empty
list. -/
theorem resolver_dispatch_gate (plan : Plan) (dRows : List DispatchRow)
    (aRows : List ApprovalRow) :
    (∀ item ∈ resolveItems plan dRows aRows,
      ∃ drow ∈ dRows, drow.post_key = item.postKey ∧ drow.ready = true) ∧
    ((∀ drow ∈ dRows, drow.ready = false) →
      resolveItems plan dRows aRows = []) := by
  constructor
  · intro item hmem
    obtain ⟨day, hday, idxp, hidx, hres⟩ := mem_resolveItems hmem
    obtain ⟨-, -, hcont, -⟩ := resolvePost_eq_some hres
    rw [List.contains_iff_exists_mem_beq] at hcont
    obtain ⟨k, hk, hbeq⟩ := hcont
    unfold dispatchReadyKeys at hk
    rw [List.mem_map] at hk
    obtain ⟨r, hr, hrk⟩ := hk
    rw [List.mem_filter] at hr
    obtain ⟨hr1, -⟩ := hr
    rw [List.mem_filter] at hr1
    obtain ⟨hrd, hready⟩ := hr1
    refine ⟨r, hrd, ?_, by simpa using hready⟩
    rw [hrk]
    exact (beq_iff_eq.mp hbeq).symm
  · intro hall
    have hnil : dRows.filter (fun r => r.ready) = [] :=
      List.filter_eq_nil_iff.mpr (fun r hr => by simp [hall r hr])
    unfold resolveItems
    rw [if_pos]
    unfold dispatchReadyKeys
    rw [hnil]
    rfl

/-- Witness for C2: in the sample state the resolved item's key is backed by
an explicit `ready = true` dispatch row. -/
theorem resolver_dispatch_gate_witness :
    ∃ drow ∈ sampleDispatch, drow.post_key = sampleItem.postKey ∧
      drow.ready = true :=
  (resolver_dispatch_gate samplePlan sampleDispatch sampleApprovals).1
    sampleItem
    (by unfold resolveItems
        rw [if_neg (by decide), List.mem_mergeSort]
        decide)

theorem tryParsedStrField_looks {parse : String → Option Json} {c : Json}
    {f hint : String} {x : Json × String}
    (h : tryParsedStrField parse c f hint = some x) :
    looksLikePlan x.1 = true := by
  unfold tryParsedStrField at h
  rcases hf : c.getStrField? f with _ | s
  · rw [hf] at h; cases h
  · rw [hf] at h
    dsimp only at h
    rcases hp : parse s with _ | obj
    · rw [hp] at h; cases h
    · rw [hp] at h
      dsimp only at h
      by_cases hl : looksLikePlan obj = true
      · rw [if_pos hl] at h
        injection h with h
        subst h
        exact hl
      · rw [if_neg hl] at h; cases h

theorem tryContentEntry_looks {parse : String → Option Json} {c : Json}
    {x : Json × String} (h : tryContentEntry parse c = some x) :
    looksLikePlan x.1 = true := by
  unfold tryContentEntry at h
  rcases hj : (match c.getField? "json" with
    | some maybeJson =>
      if looksLikePlan maybeJson then some (maybeJson, "from output.content.json")
      else none
    | none => none) with _ | y
  · rw [hj, Option.none_orElse] at h
    rcases h1 : tryParsedStrField parse c "text" "from output.content.text" with _ | y1
    · rw [h1, Option.none_orElse] at h
      rcases h2 : tryParsedStrField parse c "value" "from output.content.value" with _ | y2
      · rw [h2, Option.none_orElse] at h
        rcases h3 : tryParsedStrField parse c "output_text"
            "from output.content.output_text" with _ | y3
        · rw [h3, Option.none_orElse] at h
          exact tryParsedStrField_looks h
        · rw [h3, Option.some_orElse] at h
          injection h with h
          subst h
          exact tryParsedStrField_looks h3
      · rw [h2, Option.some_orElse] at h
        injection h with h
        subst h
        exact tryParsedStrField_looks h2
    · rw [h1, Option.some_orElse] at h
      injection h with h
      subst h
      exact tryParsedStrField_looks h1
  · rw [hj, Option.some_orElse] at h
    injection h with h
    subst h
    rcases hf : c.getField? "json" with _ | v
    · rw [hf] at hj; cases hj
    · rw [hf] at hj
      dsimp only at hj
      by_cases hl : looksLikePlan v = true
      · rw [if_pos hl] at hj
        injection hj with hj
        subst hj
        exact hl
      · rw [if_neg hl] at hj; cases hj

/-- Counterexample to C4: a payload whose `output[0].content[0].json` field
holds an object that passes the lightweight shape check but fails the full
PlanValidator (`days` contains a bare string) is accepted by the extractor
and returned by the route — so the generator does not require full
PlanValidator validation. -/
theorem plan_extraction_skips_full_validation :
    extractPlanFromResponsesPayload noParse
      (Json.obj [("output", Json.arr [Json.obj [("content", Json.arr
        [Json.obj [("json", Json.obj
          [("horizon_start_date", Json.str "2025-01-01"),
           ("horizon_end_date", Json.str "2025-01-07"),
           ("days", Json.arr [Json.str "garbage"])])]])]])]) =
      some (Json.obj
        [("horizon_start_date", Json.str "2025-01-01"),
         ("horizon_end_date", Json.str "2025-01-07"),
         ("days", Json.arr [Json.str "garbage"])],
        "from output.content.json") ∧
    isValidPlan (Json.obj
      [("horizon_start_date", Json.str "2025-01-01"),
       ("horizon_end_date", Json.str "2025-01-07"),
       ("days", Json.arr [Json.str "garbage"])]) = false ∧
    planRouteOutcome noParse
      (Json.obj [("output", Json.arr [Json.obj [("content", Json.arr
        [Json.obj [("json", Json.obj
          [("horizon_start_date", Json.str "2025-01-01"),
           ("horizon_end_date", Json.str "2025-01-07"),
           ("days", Json.arr [Json.str "garbage"])])]])]])]) =
      Except.ok (Json.obj
        [("horizon_start_date", Json.str "2025-01-01"),
         ("horizon_end_date", Json.str "2025-01-07"),
         ("days", Json.arr [Json.str "garbage"])],
        "from output.content.json") :=
  ⟨rfl, rfl, rfl⟩

/-- C4 (amended): the plan generator accepts a candidate only if it passes
the lightweight `looksLikePlan` shape check (string horizon dates and an
array `days`) — not the full PlanValidator — and when no candidate shape
parses and passes that check, the call fails with a fixed error message that
does not contain the upstream payload. -/
theorem plan_extraction_lightweight_gate :
    (∀ (parse : String → Option Json) (payload plan : Json) (hint : String),
      extractPlanFromResponsesPayload parse payload = some (plan, hint) →
      looksLikePlan plan = true) ∧
    (∀ (parse : String → Option Json) (payload : Json),
      extractPlanFromResponsesPayload parse payload = none →
      planRouteOutcome parse payload =
        Except.error
          "OpenAI returned an unexpected format. Check server logs for the raw response.") := by
  constructor
  · intro parse payload plan hint h
    unfold extractPlanFromResponsesPayload at h
    rcases h0 : (match payload.getStrField? "output_text" with
      | some s =>
        match parse s with
        | some obj =>
          if looksLikePlan obj then some (obj, "from payload.output_text") else none
        | none => none
      | none => none) with _ | y
    · rw [h0, Option.none_orElse] at h
      rcases h1 : (match payload.getArrField? "output" with
        | some output =>
          output.findSome? (fun (item : Json) =>
            match item.getArrField? "content" with
            | some content => content.findSome? (tryContentEntry parse)
            | none => none)
        | none => none) with _ | y1
      · rw [h1, Option.none_orElse] at h
        by_cases hl : looksLikePlan payload = true
        · rw [if_pos hl] at h
          injection h with h
          have hpp : payload = plan := congrArg Prod.fst h
          rw [← hpp]
          exact hl
        · rw [if_neg hl] at h; cases h
      · rw [h1, Option.some_orElse] at h
        injection h with h
        subst h
        rcases hf : payload.getArrField? "output" with _ | output
        · rw [hf] at h1; cases h1
        · rw [hf] at h1
          have h1b : output.findSome? (fun (item : Json) =>
              match item.getArrField? "content" with
              | some content => content.findSome? (tryContentEntry parse)
              | none => none) = some (plan, hint) := h1
          obtain ⟨item, -, hitem⟩ := List.exists_of_findSome?_eq_some h1b
          rcases hc : item.getArrField? "content" with _ | content
          · rw [hc] at hitem; cases hitem
          · rw [hc] at hitem
            have hitem2 : content.findSome? (tryContentEntry parse)
                = some (plan, hint) := hitem
            obtain ⟨centry, -, hcent⟩ := List.exists_of_findSome?_eq_some hitem2
            exact tryContentEntry_looks hcent
    · rw [h0, Option.some_orElse] at h
      injection h with h
      subst h
      rcases hf : payload.getStrField? "output_text" with _ | s
      · rw [hf] at h0; cases h0
      · rw [hf] at h0
        dsimp only at h0
        rcases hp : parse s with _ | obj
        · rw [hp] at h0; cases h0
        · rw [hp] at h0
          dsimp only at h0
          by_cases hl : looksLikePlan obj = true
          · rw [if_pos hl] at h0
            injection h0 with h0
            have hop : obj = plan := congrArg Prod.fst h0
            rw [← hop]
            exact hl
          · rw [if_neg hl] at h0; cases h0
  · intro parse payload h
    unfold planRouteOutcome
    rw [h]

/-- Witness for C4 (amended): the accepted counterexample plan does pass the
lightweight check, and a payload with no extractable plan produces the fixed
error message. -/
theorem plan_extraction_lightweight_gate_witness :
    looksLikePlan (Json.obj
      [("horizon_start_date", Json.str "2025-01-01"),
       ("horizon_end_date", Json.str "2025-01-07"),
       ("days", Json.arr [Json.str "garbage"])]) = true ∧
    planRouteOutcome noParse (Json.str "nonsense") =
      Except.error
        "OpenAI returned an unexpected format. Check server logs for the raw response." :=
  ⟨plan_extraction_lightweight_gate.1 noParse
      (Json.obj [("output", Json.arr [Json.obj [("content", Json.arr
        [Json.obj [("json", Json.obj
          [("horizon_start_date", Json.str "2025-01-01"),
           ("horizon_end_date", Json.str "2025-01-07"),
           ("days", Json.arr [Json.str "garbage"])])]])]])])
      (Json.obj
        [("horizon_start_date", Json.str "2025-01-01"),
         ("horizon_end_date", Json.str "2025-01-07"),
         ("days", Json.arr [Json.str "garbage"])])
      "from output.content.json" rfl,
   plan_extraction_lightweight_gate.2 noParse (Json.str "nonsense") rfl⟩

theorem collapseWsAux_cons_ws (b : Bool) (c : Char) (cs : List Char)
    (h : jsIsWs c = true) :
    collapseWsAux b (c :: cs) =
      (if b then [] else [' ']) ++ collapseWsAux true cs := by
  simp only [collapseWsAux, h, if_true]

theorem collapseWsAux_cons_not (b : Bool) (c : Char) (cs : List Char)
    (h : jsIsWs c = false) :
    collapseWsAux b (c :: cs) = c :: collapseWsAux false cs := by
  simp only [collapseWsAux, h, Bool.false_eq_true, if_false]

theorem dropWhile_head_not (l : List Char) (c : Char)
    (h : (l.dropWhile jsIsWs).head? = some c) : jsIsWs c = false := by
  have := List.head?_dropWhile_not jsIsWs l
  rw [h] at this
  exact this

theorem jsTrimData_head (l : List Char) (c : Char)
    (h : (jsTrimData l).head? = some c) : jsIsWs c = false := by
  unfold jsTrimData at h
  set t1 := l.dropWhile jsIsWs with ht1
  have hsuf : t1.reverse.dropWhile jsIsWs <:+ t1.reverse :=
    List.dropWhile_suffix _
  have hpre : (t1.reverse.dropWhile jsIsWs).reverse <+: t1 := by
    have h2 := List.reverse_prefix.mpr hsuf
    rwa [List.reverse_reverse] at h2
  obtain ⟨t, ht⟩ := hpre
  rcases hr : (t1.reverse.dropWhile jsIsWs).reverse with _ | ⟨d, r⟩
  · rw [hr] at h; cases h
  · rw [hr] at h
    injection h with h
    subst h
    apply dropWhile_head_not l d
    rw [← ht1]
    rw [← ht, hr]
    rfl

theorem jsTrimData_getLast (l : List Char) (c : Char)
    (h : (jsTrimData l).getLast? = some c) : jsIsWs c = false := by
  unfold jsTrimData at h
  rw [List.getLast?_reverse] at h
  exact dropWhile_head_not _ c h

theorem jsTrimData_id (l : List Char)
    (hh : ∀ c, l.head? = some c → jsIsWs c = false)
    (hl : ∀ c, l.getLast? = some c → jsIsWs c = false) :
    jsTrimData l = l := by
  have h1 : l.dropWhile jsIsWs = l := by
    cases l with
    | nil => rfl
    | cons c cs =>
      rw [List.dropWhile_cons, if_neg]
      rw [hh c rfl]
      simp
  unfold jsTrimData
  rw [h1]
  have h2 : l.reverse.dropWhile jsIsWs = l.reverse := by
    cases hr : l.reverse with
    | nil => rfl
    | cons c cs =>
      rw [List.dropWhile_cons, if_neg]
      have hc : l.getLast? = some c := by
        rw [← List.head?_reverse, hr]
        rfl
      rw [hl c hc]
      simp
  rw [h2, List.reverse_reverse]

theorem collapseWsAux_getLast : ∀ (l : List Char) (b : Bool) (c : Char),
    l.getLast? = some c → jsIsWs c = false →
    (collapseWsAux b l).getLast? = some c := by
  intro l
  induction l with
  | nil => intro b c h; cases h
  | cons a l ih =>
    intro b c h hc
    cases l with
    | nil =>
      simp only [List.getLast?_singleton] at h
      injection h with h
      subst h
      rw [collapseWsAux_cons_not _ _ _ hc]
      rfl
    | cons d l2 =>
      rw [List.getLast?_cons_cons] at h
      by_cases ha : jsIsWs a = true
      · rw [collapseWsAux_cons_ws b a (d :: l2) ha, List.getLast?_append,
          ih true c h hc]
        rfl
      · rw [collapseWsAux_cons_not b a (d :: l2) (by simpa using ha),
          show (a :: collapseWsAux false (d :: l2)) =
            [a] ++ collapseWsAux false (d :: l2) from rfl,
          List.getLast?_append, ih false c h hc]
        rfl

theorem collapseWsAux_length_le : ∀ (l : List Char) (b : Bool),
    (collapseWsAux b l).length ≤ l.length := by
  intro l
  induction l with
  | nil => intro b; simp [collapseWsAux]
  | cons a l ih =>
    intro b
    by_cases ha : jsIsWs a = true
    · rw [collapseWsAux_cons_ws b a l ha, List.length_append]
      have := ih true
      cases b <;> simp <;> omega
    · rw [collapseWsAux_cons_not b a l (by simpa using ha)]
      simp only [List.length_cons]
      have := ih false
      omega

theorem collapseWsAux_length_lt : ∀ (l : List Char) (b : Bool),
    hasWsRun l = true → (collapseWsAux b l).length < l.length := by
  intro l
  induction l with
  | nil => intro b h; cases h
  | cons a l ih =>
    intro b hrun
    cases l with
    | nil => cases hrun
    | cons d l2 =>
      unfold hasWsRun at hrun
      rw [Bool.or_eq_true] at hrun
      by_cases ha : jsIsWs a = true
      · rcases hrun with hpair | hrest
        · rw [Bool.and_eq_true] at hpair
          rw [collapseWsAux_cons_ws b a (d :: l2) ha, List.length_append]
          have h1 : collapseWsAux true (d :: l2) = collapseWsAux true l2 := by
            rw [collapseWsAux_cons_ws true d l2 hpair.2]
            simp
          rw [h1]
          have h2 := collapseWsAux_length_le l2 true
          cases b <;>
            simp only [if_true, if_false, Bool.false_eq_true, List.length_nil,
              List.length_cons, List.length_singleton] at h2 ⊢ <;>
            omega
        · rw [collapseWsAux_cons_ws b a (d :: l2) ha, List.length_append]
          have hlt := ih true hrest
          cases b <;>
            simp only [if_true, if_false, Bool.false_eq_true, List.length_nil,
              List.length_cons, List.length_singleton] at hlt ⊢ <;>
            omega
      · rcases hrun with hpair | hrest
        · rw [Bool.and_eq_true] at hpair
          rw [hpair.1] at ha
          cases ha rfl
        · rw [collapseWsAux_cons_not b a (d :: l2) (by simpa using ha)]
          have hlt := ih false hrest
          simp only [List.length_cons] at hlt ⊢
          omega

theorem normalizeSpaces_ne (s : String)
    (h : (strHasLeadingWs s || strHasTrailingWs s || hasWsRun s.data) = true) :
    normalizeSpaces s ≠ s := by
  intro heq
  have hdata : collapseWsAux false (jsTrimData s.data) = s.data :=
    congrArg String.data heq
  by_cases hlead : strHasLeadingWs s = true
  · unfold strHasLeadingWs at hlead
    rcases hsd : s.data with _ | ⟨c, rest⟩
    · rw [hsd] at hlead; cases hlead
    · rw [hsd] at hlead
      dsimp only at hlead
      rcases ht : jsTrimData s.data with _ | ⟨d, t2⟩
      · rw [ht] at hdata
        rw [hsd] at hdata
        cases hdata
      · have hd : jsIsWs d = false := jsTrimData_head s.data d (by rw [ht]; rfl)
        rw [ht, collapseWsAux_cons_not false d t2 hd, hsd] at hdata
        injection hdata with h1 h2
        rw [h1] at hd
        rw [hlead] at hd
        cases hd
  · by_cases htrail : strHasTrailingWs s = true
    · unfold strHasTrailingWs at htrail
      rcases hgl : s.data.getLast? with _ | c
      · rw [hgl] at htrail; cases htrail
      · rw [hgl] at htrail
        dsimp only at htrail
        have hne : jsTrimData s.data ≠ [] := by
          intro hnil
          rw [hnil] at hdata
          rw [← hdata] at hgl
          cases hgl
        obtain ⟨e, he⟩ : ∃ e, (jsTrimData s.data).getLast? = some e := by
          rcases hx : (jsTrimData s.data).getLast? with _ | e
          · rw [List.getLast?_eq_none_iff] at hx
            exact absurd hx hne
          · exact ⟨e, rfl⟩
        have hewf : jsIsWs e = false := jsTrimData_getLast _ _ he
        have hcl := collapseWsAux_getLast (jsTrimData s.data) false e he hewf
        rw [hdata, hgl] at hcl
        injection hcl with hcl
        rw [← hcl] at hewf
        rw [htrail] at hewf
        cases hewf
    · have hrun : hasWsRun s.data = true := by
        rw [Bool.or_eq_true, Bool.or_eq_true] at h
        rcases h with (h1 | h2) | h3
        · exact absurd h1 hlead
        · exact absurd h2 htrail
        · exact h3
      have hid : jsTrimData s.data = s.data := by
        apply jsTrimData_id
        · intro c hc
          by_contra hws
          apply hlead
          unfold strHasLeadingWs
          rcases hsd : s.data with _ | ⟨c2, rest⟩
          · rw [hsd] at hc; cases hc
          · rw [hsd] at hc
            injection hc with hc
            dsimp only
            rw [hc]
            simpa using hws
        · intro c hc
          by_contra hws
          apply htrail
          unfold strHasTrailingWs
          rw [hc]
          dsimp only
          simpa using hws
      have hlen := collapseWsAux_length_lt s.data false hrun
      rw [hid] at hdata
      rw [hdata] at hlen
      exact absurd hlen (lt_irrefl _)

set_option maxHeartbeats 1000000 in
/-- C5: the approval and dispatch set endpoints store the submitted postKey
whitespace-normalised while the resolver derives keys from raw caption /
media prefixes; hence whenever the derived key has leading, trailing or
consecutive whitespace, a record written through these endpoints under that
key is stored under a different string and is never matched by the
resolver's lookup for that key. -/
theorem postKey_whitespace_mismatch (dayDate : String) (p : PlanPost)
    (idx : Nat) (status : ApprovalStatus) (rr dai : Option String)
    (now now2 : String) (ready : Bool)
    (hws : (strHasLeadingWs (makePostKey dayDate p idx) ||
            strHasTrailingWs (makePostKey dayDate p idx) ||
            hasWsRun (makePostKey dayDate p idx).data) = true) :
    normalizeSpaces (makePostKey dayDate p idx) ≠ makePostKey dayDate p idx ∧
    (∀ row, approvalPostRow (makePostKey dayDate p idx) status rr dai now
        = some row →
      row.post_key ≠ makePostKey dayDate p idx ∧
      approvalsMap [row] (makePostKey dayDate p idx) = none) ∧
    (∀ drow, dispatchPostRow (makePostKey dayDate p idx) ready now2
        = some drow →
      drow.post_key ≠ makePostKey dayDate p idx ∧
      makePostKey dayDate p idx ∉ dispatchReadyKeys [drow]) := by
  have hne := normalizeSpaces_ne _ hws
  have hbeq : (normalizeSpaces (makePostKey dayDate p idx) ==
      makePostKey dayDate p idx) = false := by
    rw [beq_eq_false_iff_ne]
    exact hne
  refine ⟨hne, ?_, ?_⟩
  · intro row hrow
    unfold approvalPostRow at hrow
    split at hrow
    · cases hrow
    · injection hrow with hrow
      have hpk : row.post_key = normalizeSpaces (makePostKey dayDate p idx) :=
        congrArg ApprovalRow.post_key hrow.symm
      refine ⟨by rw [hpk]; exact hne, ?_⟩
      unfold approvalsMap
      have hflt : List.filter (fun r =>
          r.post_key != "" && r.post_key == makePostKey dayDate p idx) [row]
          = [] := by
        rw [List.filter_cons]
        have hp : (row.post_key != "" &&
            row.post_key == makePostKey dayDate p idx) = false := by
          rw [hpk]
          simp [hbeq]
        rw [hp]
        simp
      rw [hflt]
      rfl
  · intro drow hdrow
    unfold dispatchPostRow at hdrow
    split at hdrow
    · cases hdrow
    · injection hdrow with hdrow
      have hpk : drow.post_key = normalizeSpaces (makePostKey dayDate p idx) :=
        congrArg DispatchRow.post_key hdrow.symm
      refine ⟨by rw [hpk]; exact hne, ?_⟩
      intro hmem
      unfold dispatchReadyKeys at hmem
      rw [List.mem_map] at hmem
      obtain ⟨r, hr, hrk⟩ := hmem
      rw [List.mem_filter] at hr
      obtain ⟨hr1, -⟩ := hr
      rw [List.mem_filter] at hr1
      obtain ⟨hr2, -⟩ := hr1
      rw [List.mem_singleton] at hr2
      subst hr2
      rw [hpk] at hrk
      exact hne hrk

/-- Witness for C5: a caption with a double space inside its first 80
characters produces a derived key that the endpoints' normalisation
changes. -/
theorem postKey_whitespace_mismatch_witness :
    normalizeSpaces (makePostKey "2025-01-02"
      { source := "scheduled", platform := "instagram", format := "post",
        suggested_time_local := "10:00", caption := "Big  sale",
        hashtags := [], media_instructions := "Use photo",
        approval_required := true, approval_reason := "promo" } 0) ≠
    makePostKey "2025-01-02"
      { source := "scheduled", platform := "instagram", format := "post",
        suggested_time_local := "10:00", caption := "Big  sale",
        hashtags := [], media_instructions := "Use photo",
        approval_required := true, approval_reason := "promo" } 0 :=
  (postKey_whitespace_mismatch "2025-01-02"
    { source := "scheduled", platform := "instagram", format := "post",
      suggested_time_local := "10:00", caption := "Big  sale",
      hashtags := [], media_instructions := "Use photo",
      approval_required := true, approval_reason := "promo" } 0
    ApprovalStatus.approved none none "T0" "T0" true (by decide)).1

theorem toDigitsCore_append : ∀ (fuel n : Nat) (acc : List Char),
    Nat.toDigitsCore 10 fuel n acc = Nat.toDigitsCore 10 fuel n [] ++ acc := by
  intro fuel
  induction fuel with
  | zero => intro n acc; rfl
  | succ f ih =>
    intro n acc
    unfold Nat.toDigitsCore
    by_cases h : n / 10 = 0
    · simp [h]
    · rw [if_neg h, if_neg h, ih (n / 10) [Nat.digitChar (n % 10)],
        ih (n / 10) (Nat.digitChar (n % 10) :: acc)]
      simp

theorem toDigitsCore_eq_decDigits : ∀ (fuel n : Nat), n < fuel →
    Nat.toDigitsCore 10 fuel n [] = decDigits n := by
  intro fuel
  induction fuel with
  | zero => intro n h; omega
  | succ f ih =>
    intro n h
    unfold Nat.toDigitsCore
    by_cases h0 : n / 10 = 0
    · have hn : n < 10 := by omega
      rw [if_pos h0, decDigits, dif_pos hn]
      have : n % 10 = n := Nat.mod_eq_of_lt hn
      rw [this]
    · have hn : ¬ n < 10 := by
        intro hlt
        exact h0 (Nat.div_eq_of_lt hlt)
      rw [if_neg h0, decDigits, dif_neg hn]
      rw [toDigitsCore_append]
      congr 1
      apply ih
      have : n / 10 < n := Nat.div_lt_self (by omega) (by omega)
      omega

theorem repr_data (n : Nat) : (Nat.repr n).data = decDigits n := by
  show (Nat.toDigits 10 n).asString.data = decDigits n
  unfold Nat.toDigits
  rw [toDigitsCore_eq_decDigits (n + 1) n (by omega)]
  rfl

theorem digitChar_val : ∀ d : Nat, d < 10 → (Nat.digitChar d).toNat - 48 = d := by
  decide

theorem digitChar_ne_pipe : ∀ d : Nat, d < 10 → Nat.digitChar d ≠ '|' := by
  decide

theorem decDigits_foldl (n : Nat) : ∀ (a : Nat),
    (decDigits n).foldl (fun a c => 10 * a + (c.toNat - 48)) a =
      a * 10 ^ (decDigits n).length + n := by
  induction n using decDigits.induct with
  | case1 n h =>
    intro a
    rw [decDigits, dif_pos h]
    simp only [List.foldl_cons, List.foldl_nil, List.length_singleton]
    rw [digitChar_val n h]
    ring
  | case2 n h ih =>
    intro a
    rw [decDigits, dif_neg h]
    rw [List.foldl_append, List.length_append]
    rw [ih]
    simp only [List.foldl_cons, List.foldl_nil, List.length_singleton]
    rw [digitChar_val (n % 10) (Nat.mod_lt n (by omega))]
    have hdm : 10 * (n / 10) + n % 10 = n := Nat.div_add_mod n 10
    rw [pow_succ]
    ring_nf
    omega

theorem repr_inj {m n : Nat} (h : Nat.repr m = Nat.repr n) : m = n := by
  have hd : decDigits m = decDigits n := by
    rw [← repr_data, ← repr_data, h]
  have h1 := decDigits_foldl m 0
  have h2 := decDigits_foldl n 0
  rw [hd] at h1
  rw [h1] at h2
  omega

theorem decDigits_ne_pipe (n : Nat) : '|' ∉ decDigits n := by
  induction n using decDigits.induct with
  | case1 n h =>
    rw [decDigits, dif_pos h]
    intro hmem
    rw [List.mem_singleton] at hmem
    exact digitChar_ne_pipe n h hmem.symm
  | case2 n h ih =>
    rw [decDigits, dif_neg h]
    intro hmem
    rw [List.mem_append] at hmem
    rcases hmem with hm | hm
    · exact ih hm
    · rw [List.mem_singleton] at hm
      exact digitChar_ne_pipe (n % 10) (Nat.mod_lt n (by omega)) hm.symm

theorem repr_no_pipe (n : Nat) : '|' ∉ (Nat.repr n).data := by
  rw [repr_data]
  exact decDigits_ne_pipe n

theorem pipe_split : ∀ {a c x y : List Char}, '|' ∉ a → '|' ∉ c →
    a ++ '|' :: x = c ++ '|' :: y → a = c ∧ x = y := by
  intro a
  induction a with
  | nil =>
    intro c x y _ hc h
    cases c with
    | nil => simp at h; simp [h]
    | cons d ds =>
      simp only [List.nil_append, List.cons_append, List.cons.injEq] at h
      exfalso
      apply hc
      rw [← h.1]
      exact List.mem_cons_self _ _
  | cons b bs ih =>
    intro c x y hb hc h
    cases c with
    | nil =>
      simp only [List.nil_append, List.cons_append, List.cons.injEq] at h
      exfalso
      apply hb
      rw [h.1]
      exact List.mem_cons_self _ _
    | cons d ds =>
      simp only [List.cons_append, List.cons.injEq] at h
      obtain ⟨hbd, hrest⟩ := h
      have := ih (fun hm => hb (List.mem_cons_of_mem b hm))
        (fun hm => hc (List.mem_cons_of_mem d hm)) hrest
      exact ⟨by rw [hbd, this.1], this.2⟩

theorem makePostKey_eq (d : String) (p : PlanPost) (i : Nat) :
    makePostKey d p i =
      d ++ "|" ++ Nat.repr i ++ "|" ++ p.platform ++ "|" ++ p.format ++ "|" ++
      p.suggested_time_local ++ "|" ++ jsSlice p.caption 80 ++ "|" ++
      jsSlice p.media_instructions 80 := rfl

theorem makePostKey_data (d : String) (p : PlanPost) (i : Nat) :
    (makePostKey d p i).data =
      d.data ++ '|' :: ((Nat.repr i).data ++ '|' :: (p.platform.data ++
      '|' :: (p.format.data ++ '|' :: (p.suggested_time_local.data ++
      '|' :: ((jsSlice p.caption 80).data ++
      '|' :: (jsSlice p.media_instructions 80).data))))) := by
  rw [makePostKey_eq]
  simp [String.data_append, List.append_assoc]

theorem makePostKey_inj (d₁ d₂ : String) (p₁ p₂ : PlanPost) (i₁ i₂ : Nat)
    (hd₁ : noPipe d₁) (hd₂ : noPipe d₂)
    (hpl₁ : noPipe p₁.platform) (hpl₂ : noPipe p₂.platform)
    (hf₁ : noPipe p₁.format) (hf₂ : noPipe p₂.format)
    (ht₁ : noPipe p₁.suggested_time_local) (ht₂ : noPipe p₂.suggested_time_local)
    (hc₁ : noPipe (jsSlice p₁.caption 80)) (hc₂ : noPipe (jsSlice p₂.caption 80))
    (heq : makePostKey d₁ p₁ i₁ = makePostKey d₂ p₂ i₂) :
    d₁ = d₂ ∧ i₁ = i₂ ∧ p₁.platform = p₂.platform ∧ p₁.format = p₂.format ∧
    p₁.suggested_time_local = p₂.suggested_time_local ∧
    jsSlice p₁.caption 80 = jsSlice p₂.caption 80 ∧
    jsSlice p₁.media_instructions 80 = jsSlice p₂.media_instructions 80 := by
  have h := congrArg String.data heq
  rw [makePostKey_data, makePostKey_data] at h
  obtain ⟨e1, h⟩ := pipe_split hd₁ hd₂ h
  obtain ⟨e2, h⟩ := pipe_split (repr_no_pipe i₁) (repr_no_pipe i₂) h
  obtain ⟨e3, h⟩ := pipe_split hpl₁ hpl₂ h
  obtain ⟨e4, h⟩ := pipe_split hf₁ hf₂ h
  obtain ⟨e5, h⟩ := pipe_split ht₁ ht₂ h
  obtain ⟨e6, e7⟩ := pipe_split hc₁ hc₂ h
  exact ⟨String.ext e1, repr_inj (String.ext e2), String.ext e3, String.ext e4,
    String.ext e5, String.ext e6, String.ext e7⟩

/-- Counterexample to C3: two valid posts that differ within the first 80
characters of their captions (`"x"` vs `"x|y"`) nevertheless derive the same
key, because the `"|"` join delimiter is not escaped — so the key does not
always differ when a listed field differs. -/
theorem makePostKey_pipe_collision :
    makePostKey "2025-01-01"
      { source := "scheduled", platform := "instagram", format := "post",
        suggested_time_local := "10:00", caption := "x", hashtags := [],
        media_instructions := "y|z", approval_required := false,
        approval_reason := "" } 0 =
    makePostKey "2025-01-01"
      { source := "scheduled", platform := "instagram", format := "post",
        suggested_time_local := "10:00", caption := "x|y", hashtags := [],
        media_instructions := "z", approval_required := false,
        approval_reason := "" } 0 ∧
    jsSlice "x" 80 ≠ jsSlice "x|y" 80 :=
  ⟨rfl, by decide⟩

/-- C3 (amended): `makePostKey` is deterministic; posts identical except
beyond character 80 of caption or mediaInstructions derive the same key; and
— provided none of the date, platform, format, time, or the first 80 caption
characters contains the `"|"` join delimiter — the key differs whenever the
date, index, platform, format, time, or the first 80 characters of caption
or mediaInstructions differs. -/
theorem makePostKey_identity :
    (∀ (d : String) (p : PlanPost) (i : Nat),
      makePostKey d p i = makePostKey d p i) ∧
    (∀ (d : String) (p q : PlanPost) (i : Nat),
      p.platform = q.platform → p.format = q.format →
      p.suggested_time_local = q.suggested_time_local →
      jsSlice p.caption 80 = jsSlice q.caption 80 →
      jsSlice p.media_instructions 80 = jsSlice q.media_instructions 80 →
      makePostKey d p i = makePostKey d q i) ∧
    (∀ (d₁ d₂ : String) (p₁ p₂ : PlanPost) (i₁ i₂ : Nat),
      noPipe d₁ → noPipe d₂ →
      noPipe p₁.platform → noPipe p₂.platform →
      noPipe p₁.format → noPipe p₂.format →
      noPipe p₁.suggested_time_local → noPipe p₂.suggested_time_local →
      noPipe (jsSlice p₁.caption 80) → noPipe (jsSlice p₂.caption 80) →
      makePostKey d₁ p₁ i₁ = makePostKey d₂ p₂ i₂ →
      d₁ = d₂ ∧ i₁ = i₂ ∧ p₁.platform = p₂.platform ∧
      p₁.format = p₂.format ∧
      p₁.suggested_time_local = p₂.suggested_time_local ∧
      jsSlice p₁.caption 80 = jsSlice p₂.caption 80 ∧
      jsSlice p₁.media_instructions 80 = jsSlice p₂.media_instructions 80) := by
  refine ⟨fun d p i => rfl, ?_, ?_⟩
  · intro d p q i hpl hf ht hc hm
    unfold makePostKey
    rw [hpl, hf, ht, hc, hm]
  · intro d₁ d₂ p₁ p₂ i₁ i₂ hd₁ hd₂ hpl₁ hpl₂ hf₁ hf₂ ht₁ ht₂ hc₁ hc₂ heq
    exact makePostKey_inj d₁ d₂ p₁ p₂ i₁ i₂ hd₁ hd₂ hpl₁ hpl₂ hf₁ hf₂ ht₁ ht₂
      hc₁ hc₂ heq

/-- Witness for C3 (amended): two posts whose captions agree on the first 80
characters (`80 × 'a'` followed by different tails) derive equal keys, and
the theorem recovers equality of the caption prefixes from equality of the
keys at delimiter-free field values. -/
theorem makePostKey_identity_witness :
    jsSlice ((⟨List.replicate 80 'a'⟩ : String) ++ "XYZ") 80 =
      jsSlice ((⟨List.replicate 80 'a'⟩ : String) ++ "QRS") 80 :=
  (makePostKey_identity.2.2 "2025-01-01" "2025-01-01"
    { source := "scheduled", platform := "instagram", format := "post",
      suggested_time_local := "10:00",
      caption := (⟨List.replicate 80 'a'⟩ : String) ++ "XYZ", hashtags := [],
      media_instructions := "m", approval_required := false,
      approval_reason := "" }
    { source := "scheduled", platform := "instagram", format := "post",
      suggested_time_local := "10:00",
      caption := (⟨List.replicate 80 'a'⟩ : String) ++ "QRS", hashtags := [],
      media_instructions := "m", approval_required := false,
      approval_reason := "" } 0 0
    (by decide) (by decide) (by decide) (by decide) (by decide) (by decide)
    (by decide) (by decide) (by decide) (by decide) (by decide)).2.2.2.2.2.1

end FlowPilot
